import Mathlib

/-!
# cashier: the GitHub identity provider and the certificate store contract

Shallow embedding of `server/auth/github/github.go` (the organization-gated
OAuth provider) and of the store scenario exercised by
`server/store/store_test.go`.

Conventions of the embedding

* A Go pointer that may be nil is an `Option`; a Go `(value, error)` result
  whose two halves are returned independently is a pair of `Option`s.
* A call into a library that answers with either a value or an error is an
  `Except`.
* A run-time panic (nil dereference) is the `Outcome.panics` constructor.
* The identity service and the clock are parameters (`Env`): every theorem
  quantifies over all of their behaviours.  Each round trip to the identity
  service is appended to a request log carried in `State`, and the service may
  answer depending on that log.
-/

namespace Cashier

/-! ## Go `time` -/

/-- Length of time in nanoseconds (Go `time.Duration`). -/
abbrev Duration := Int

/-- Conversion of a machine integer to `int64` (two's complement wrap), as Go
performs it in `int64(x)` and in 64-bit signed arithmetic. -/
def toInt64 (x : Int) : Int := (x + 2 ^ 63) % 2 ^ 64 - 2 ^ 63

/-- Conversion of a machine integer to `uint64`, as in the test's
`uint64(rec.Expires.Unix())`. -/
def toUint64 (x : Int) : Int := x % 2 ^ 64

/-- Instant on the wall clock (Go `time.Time`; location and monotonic reading
play no part in the code embedded here), held as the nanoseconds since the
Unix epoch that `Unix()` and `Nanosecond()` report.  Go keeps the seconds in
an `int64` counted from January 1 of year 1: `ofUnix` and `Before` wrap the
way that counter does.  `Add` is plain addition, which is what Go computes
for every instant that is not within the added duration of the ends of the
`int64` range. -/
structure Time where
  nanos : Int
deriving DecidableEq, Repr

namespace Time

/-- Nanoseconds in a second (`time.Second`). -/
def Second : Duration := 1000000000

/-- Nanoseconds in a minute (`time.Minute`). -/
def Minute : Duration := 60 * Second

/-- Nanoseconds in an hour (`time.Hour`). -/
def Hour : Duration := 60 * Minute

/-- Go zero value of `time.Time`: January 1 of year 1, 00:00:00 UTC, which is
62135596800 seconds before the Unix epoch. -/
def zero : Time := ⟨-62135596800 * 1000000000⟩

/-- Seconds since the Unix epoch, rounded down (`Time.Unix()`). -/
def Unix (t : Time) : Int := t.nanos / 1000000000

/-- Instant `d` later (`Time.Add`). -/
def Add (t : Time) (d : Duration) : Time := ⟨t.nanos + d⟩

/-- Whether the instant is the zero value (`Time.IsZero`). -/
def IsZero (t : Time) : Bool := decide (t = zero)

/-- Seconds since January 1 of year 1 as Go holds them, an `int64`
(`Time.sec()`): the Unix seconds plus 62135596800, wrapped. -/
def sec (t : Time) : Int := toInt64 (t.nanos / 1000000000 + 62135596800)

/-- Nanoseconds within the second, from 0 to 999999999 (`Time.nsec()`). -/
def nsec (t : Time) : Int := t.nanos % 1000000000

/-- Whether `t` is strictly earlier than `u` (`Time.Before`): Go compares the
`int64` second counters, then the nanoseconds. -/
def Before (t u : Time) : Bool :=
  decide (t.sec < u.sec ∨ (t.sec = u.sec ∧ t.nsec < u.nsec))

/-- Instant lying `sec` seconds and `nsec` nanoseconds after the Unix epoch
(`time.Unix(sec, nsec)`).  Both parameters are `int64` in Go, so a value
outside that range arrives wrapped. -/
def ofUnix (sec nsec : Int) : Time := ⟨toInt64 sec * 1000000000 + toInt64 nsec⟩

end Time

/-! ## Values exchanged with the libraries -/

/-- Go `error` value, identified by its message. -/
structure GoError where
  msg : String
deriving DecidableEq, Repr

/-- How a call ends: it returns a value or it panics. -/
inductive Outcome (α : Type) where
  | returns (v : α)
  | panics
deriving DecidableEq, Repr

/-- OAuth token (`oauth2.Token`). -/
structure Token where
  AccessToken : String
  TokenType : String
  RefreshToken : String
  Expiry : Time
deriving DecidableEq, Repr

/-- OAuth endpoint pair (`oauth2.Endpoint`). -/
structure Endpoint where
  AuthURL : String
  TokenURL : String
deriving DecidableEq, Repr

/-- OAuth client configuration (`oauth2.Config`). -/
structure OAuthConfig where
  ClientID : String
  ClientSecret : String
  RedirectURL : String
  Endpoint : Endpoint
  Scopes : List String
deriving DecidableEq, Repr

/-- GitHub user object (`githubapi.User`), reduced to the field the code
reads.  `Login` is a `*string` in Go: `none` is the nil pointer of a response
that carries no login. -/
structure User where
  Login : Option String
deriving DecidableEq, Repr

/-- Handshake state handed back to the caller (`auth.Session`). -/
structure Session where
  AuthURL : String
  State : String
deriving DecidableEq, Repr

/-- Modelled from the spec: the `config.Auth` type is declared outside the
sources at hand; these are the fields `New` reads (OAuth client id, client
secret, redirect URL and the provider-specific options mapping). -/
structure Auth where
  OauthClientID : String
  OauthClientSecret : String
  OauthCallbackURL : String
  ProviderOpts : List (String × String)
deriving DecidableEq, Repr

/-- Read of a Go `map[string]string` at key `k`: a missing key reads as the
empty string. -/
def mapIndex (m : List (String × String)) (k : String) : String :=
  (m.lookup k).getD ""

/-- Endpoint of GitHub (`github.Endpoint` of `golang.org/x/oauth2/github`). -/
def githubEndpoint : Endpoint :=
  { AuthURL := "https://github.com/login/oauth/authorize"
    TokenURL := "https://github.com/login/oauth/access_token" }

/-- Scope `githubapi.ScopeUser`. -/
def ScopeUser : String := "user"

/-- Scope `githubapi.ScopeReadOrg`. -/
def ScopeReadOrg : String := "read:org"

/-! ## The provider -/

/-- Provider name constant. -/
def name : String := "github"

/-- GitHub implementation of `auth.Provider` (the `Config` struct). -/
structure Config where
  config : OAuthConfig
  organization : String
deriving DecidableEq, Repr

/-- One round trip to the identity service. -/
inductive Request where
  | tokenExchange (conf : OAuthConfig) (code : String)
  | usersGet (conf : OAuthConfig) (token : Option Token) (user : String)
  | isMember (conf : OAuthConfig) (token : Option Token) (org user : String)
deriving DecidableEq, Repr

/-- Everything outside the provider: the clock, the token check of the OAuth
library and the answers of the identity service.  An HTTP client made by
`newClient` is determined by the OAuth configuration and the token, so the
service calls take both; they also take the log of the requests made so far,
so the service need not answer the same way twice. -/
structure Env where
  /-- Reading of `time.Now()`. -/
  now : Time
  /-- Library check `(*oauth2.Token).Valid`; it accepts a nil token. -/
  tokenValid : Option Token → Bool
  /-- Library call `(*oauth2.Config).Exchange`. -/
  configExchange : List Request → OAuthConfig → String → Except GoError Token
  /-- Library call `client.Users.Get(user)`. -/
  usersGet : List Request → OAuthConfig → Option Token → String → Except GoError User
  /-- Library call `client.Organizations.IsMember(org, user)`: the membership
  flag and the error are returned side by side. -/
  isMember : List Request → OAuthConfig → Option Token → String → String → Bool × Option GoError
  /-- Library call `(*oauth2.Config).AuthCodeURL`. -/
  authCodeURL : OAuthConfig → String → String

/-- What a method can read and write through its pointers: the receiver, the
token argument (`none` is a nil pointer) and the log of requests sent to the
identity service. -/
structure State where
  self : Config
  token : Option Token
  log : List Request
deriving DecidableEq, Repr

/-- Function `New`: creates a GitHub provider from a configuration.  The result
is Go's `(auth.Provider, error)` pair. -/
def New (c : Auth) : Option Config × Option GoError :=
  if mapIndex c.ProviderOpts "organization" = "" then
    (none, some ⟨"github_opts organization must not be empty"⟩)
  else
    (some
      { config :=
          { ClientID := c.OauthClientID
            ClientSecret := c.OauthClientSecret
            RedirectURL := c.OauthCallbackURL
            Endpoint := githubEndpoint
            Scopes := [ScopeUser, ScopeReadOrg] }
        organization := mapIndex c.ProviderOpts "organization" },
     none)

/-- Method `Name`: the name of the provider. -/
def Name (_c : Config) : String := name

/-- Method `Username`: one `Users.Get("")` round trip; an error yields the
empty string, otherwise the login pointer is dereferenced. -/
def Username (env : Env) (s : State) : Outcome String × State :=
  let s1 : State := { s with log := s.log ++ [Request.usersGet s.self.config s.token ""] }
  match env.usersGet s.log s.self.config s.token "" with
  | .error _ => (.returns "", s1)
  | .ok u =>
    match u.Login with
    | none => (.panics, s1)
    | some login => (.returns login, s1)

/-- Method `Valid`: validates the OAuth token, then asks the identity service
whether the user named by `Username` belongs to the organization. -/
def Valid (env : Env) (s : State) : Outcome Bool × State :=
  if env.tokenValid s.token = false then
    (.returns false, s)
  else
    match Username env s with
    | (.panics, s1) => (.panics, s1)
    | (.returns user, s1) =>
      let r := env.isMember s1.log s1.self.config s1.token s1.self.organization user
      let s2 : State :=
        { s1 with log := s1.log ++
            [Request.isMember s1.self.config s1.token s1.self.organization user] }
      match r.2 with
      | some _ => (.returns false, s2)
      | none => (.returns r.1, s2)

/-- Method `Revoke`: returns nil to satisfy the provider interface. -/
def Revoke (s : State) : Option GoError × State := (none, s)

/-- Method `StartSession`: the authentication endpoint for `state`. -/
def StartSession (env : Env) (c : Config) (state : String) : Session :=
  { AuthURL := env.authCodeURL c.config state, State := state }

/-- Method `Exchange`: authorizes the session and returns an access token; a
token whose expiry is not after the epoch gets one hour from now.  The result
is Go's `(*oauth2.Token, error)` pair. -/
def Exchange (env : Env) (s : State) (code : String) :
    (Option Token × Option GoError) × State :=
  let s1 : State := { s with log := s.log ++ [Request.tokenExchange s.self.config code] }
  match env.configExchange s.log s.self.config code with
  | .error err => ((none, some err), s1)
  | .ok t =>
    let t1 : Token :=
      if t.Expiry.Unix ≤ 0 then { t with Expiry := env.now.Add (1 * Time.Hour) } else t
    ((some t1, none), s1)

/-! ## The certificate record, the parser and the in-memory store

`store_test.go` exercises `parseCertificate` and the `CertStorer` backends;
their bodies live in files that are not part of the sources at hand, so they
are modelled on the specification's contract (sections 3, 4.1 and 4.2). -/

/-- Signed wire certificate (`ssh.Certificate`), with the fields the
specification lists: key id, valid principals, validity window in unsigned
64-bit epoch seconds, certificate type, embedded public key and signature. -/
structure Certificate where
  KeyId : String
  ValidPrincipals : List String
  ValidAfter : Nat
  ValidBefore : Nat
  CertType : Nat
  Key : String
  Signature : String
deriving DecidableEq, Repr

/-- Modelled from the spec: the `CertRecord` type is declared in a file that
is not part of the sources at hand.  Section 3: key id, ordered principals,
creation and expiry instants, the serialized certificate, and the revocation
flag. -/
structure CertRecord where
  KeyID : String
  Principals : List String
  CreatedAt : Time
  Expires : Time
  Raw : String
  Revoked : Bool
deriving DecidableEq, Repr

/-- Modelled from the spec: `parseCertificate` is called by the test but
defined in a file that is not part of the sources at hand.  Section 4.1: the
record's `KeyID`, `Principals`, `CreatedAt` and `Expires` are set from the
certificate's key id, valid principals, valid-after and valid-before; the
mapping is total.  The validity fields are `uint64` and reach Go's
`time.Unix` as `int64`, which keeps all 64 bits (the test reads them back with
`uint64(rec.Expires.Unix())`).  The serialization that fills `Raw` is left as
the parameter `marshal`; a fresh record is not revoked. -/
def parseCertificate (marshal : Certificate → String) (cert : Certificate) : CertRecord :=
  { KeyID := cert.KeyId
    Principals := cert.ValidPrincipals
    CreatedAt := Time.ofUnix cert.ValidAfter 0
    Expires := Time.ofUnix cert.ValidBefore 0
    Raw := marshal cert
    Revoked := false }

/-- Modelled from the spec: error taxonomy of the store (section 7), a lookup
miss and a backend failure. -/
inductive StoreError where
  | NotFound (keyID : String)
  | StorageError (msg : String)
deriving DecidableEq, Repr

/-- Modelled from the spec: the in-memory backend (`NewMemoryStore` is called
by the test but defined in a file that is not part of the sources at hand).
The mapping from key id to record is held as a list in insertion order with at
most one record per key id. -/
structure MemoryStore where
  certs : List CertRecord
deriving DecidableEq, Repr

namespace MemoryStore

/-- Modelled from the spec: upsert keyed by `KeyID`, last write wins; a new
key is appended, an existing key is overwritten in place. -/
def upsert (r : CertRecord) : List CertRecord → List CertRecord
  | [] => [r]
  | x :: xs => if x.KeyID = r.KeyID then r :: xs else x :: upsert r xs

/-- Modelled from the spec: lookup of the record stored under a key id. -/
def find (k : String) (rs : List CertRecord) : Option CertRecord :=
  rs.find? (fun r => decide (r.KeyID = k))

/-- Modelled from the spec: `SetRecord(record)` upserts a record keyed by
`KeyID`; the in-process backend has no failure mode. -/
def SetRecord (ms : MemoryStore) (record : CertRecord) : Option StoreError × MemoryStore :=
  (none, ⟨upsert record ms.certs⟩)

/-- Modelled from the spec: `SetCert(certificate)` is the composition of the
parser and `SetRecord`. -/
def SetCert (marshal : Certificate → String) (ms : MemoryStore) (cert : Certificate) :
    Option StoreError × MemoryStore :=
  ms.SetRecord (parseCertificate marshal cert)

/-- Modelled from the spec: `Get(keyID)` returns the most recently stored
record for the key, or `NotFound`; expiry is not looked at. -/
def Get (ms : MemoryStore) (keyID : String) : Except StoreError CertRecord :=
  match find keyID ms.certs with
  | some r => .ok r
  | none => .error (.NotFound keyID)

/-- Modelled from the spec: `Revoke(keyID)` marks the record's `Revoked` flag
true.  For a key that is not stored the specification allows a no-op or
`NotFound`; this model answers `NotFound` and leaves the store as it is. -/
def Revoke (ms : MemoryStore) (keyID : String) : Option StoreError × MemoryStore :=
  match find keyID ms.certs with
  | some r => (none, ⟨upsert { r with Revoked := true } ms.certs⟩)
  | none => (some (.NotFound keyID), ms)

/-- Modelled from the spec: `GetRevoked()` returns exactly the records with
`Revoked == true`, in the order of `List`. -/
def GetRevoked (ms : MemoryStore) : Except StoreError (List CertRecord) :=
  .ok (ms.certs.filter (fun r => r.Revoked))

/-- Modelled from the spec: `List(includeExpired)` returns all known records;
when `includeExpired` is false it leaves out the records whose `Expires` is
before the current time. -/
def List (now : Time) (ms : MemoryStore) (includeExpired : Bool) :
    Except StoreError (List CertRecord) :=
  .ok (ms.certs.filter (fun r => includeExpired || !(r.Expires.Before now)))

end MemoryStore

/-- Modelled from the spec: `NewMemoryStore()` takes no argument and yields an
empty store. -/
def NewMemoryStore : MemoryStore := ⟨[]⟩

/-- What the scenario of `testStore` observes, step by step. -/
structure StoreRun where
  setRecordErr : Option StoreError
  listed : Except StoreError (List CertRecord)
  setCertErr : Option StoreError
  got : Except StoreError CertRecord
  revokeErr : Option StoreError
  revoked : Except StoreError (List CertRecord)
  final : MemoryStore

/-- Function `testStore` of `store_test.go`, run on the in-memory backend
(`TestMemoryStore`) with the record `r`, the certificate `cert` and the key
`key` in place of the test's fixtures: `SetRecord(r)`, `List(true)`,
`SetCert(cert)`, `Get(key)`, `Revoke(key)`, `GetRevoked()`. -/
def testStore (marshal : Certificate → String) (now : Time) (r : CertRecord)
    (cert : Certificate) (key : String) : StoreRun :=
  let db0 := NewMemoryStore
  let step1 := db0.SetRecord r
  let listed := step1.2.List now true
  let step2 := step1.2.SetCert marshal cert
  let got := step2.2.Get key
  let step3 := step2.2.Revoke key
  let revoked := step3.2.GetRevoked
  { setRecordErr := step1.1
    listed := listed
    setCertErr := step2.1
    got := got
    revokeErr := step3.1
    revoked := revoked
    final := step3.2 }

/-- Whether an instant given as an expiry has not passed at `now`. -/
def unexpired (now expires : Time) : Bool := !(expires.Before now)

/-! ## Concrete environments used in the evaluations below -/

/-- A token with an access value and an expiry in the year 2033. -/
def sampleToken : Token :=
  { AccessToken := "t0", TokenType := "bearer", RefreshToken := "", Expiry := Time.ofUnix 2000000000 0 }

/-- A provider as `New` builds it, for the organization `acme`. -/
def sampleConfig : Config :=
  { config :=
      { ClientID := "id", ClientSecret := "secret", RedirectURL := "https://ca.example/cb"
        Endpoint := githubEndpoint, Scopes := [ScopeUser, ScopeReadOrg] }
    organization := "acme" }

/-- Receiver `sampleConfig`, token `sampleToken`, no request made yet. -/
def sampleState : State := { self := sampleConfig, token := some sampleToken, log := [] }

/-- An identity service whose user lookup fails while its membership query
answers "member" for whatever name it is asked about; the token check passes. -/
def lookupDownEnv : Env :=
  { now := Time.ofUnix 1700000000 0
    tokenValid := fun _ => true
    configExchange := fun _ _ _ => .error ⟨"oauth2: cannot fetch token"⟩
    usersGet := fun _ _ _ _ => .error ⟨"connection refused"⟩
    isMember := fun _ _ _ _ _ => (true, none)
    authCodeURL := fun _ state => state }

/-- An identity service whose user lookup succeeds with a user object that
carries no login. -/
def noLoginEnv : Env :=
  { now := Time.ofUnix 1700000000 0
    tokenValid := fun _ => true
    configExchange := fun _ _ _ => .error ⟨"oauth2: cannot fetch token"⟩
    usersGet := fun _ _ _ _ => .ok { Login := none }
    isMember := fun _ _ _ _ _ => (true, none)
    authCodeURL := fun _ state => state }

/-- An identity service that knows the user `alice`; its membership query
fails with an error while carrying the flag `true`, and its token endpoint
hands out a token with Go's zero expiry. -/
def flakyEnv : Env :=
  { now := Time.ofUnix 1700000000 0
    tokenValid := fun t => t.isSome
    configExchange := fun _ _ code =>
      if code = "good" then
        .ok { AccessToken := "t1", TokenType := "bearer", RefreshToken := "", Expiry := Time.zero }
      else .error ⟨"oauth2: cannot fetch token"⟩
    usersGet := fun _ _ _ _ => .ok { Login := some "alice" }
    isMember := fun _ _ _ _ _ => (true, some ⟨"timeout"⟩)
    authCodeURL := fun _ state => state }

/-- An identity service that knows the user `alice` and reports her a member
of every organization. -/
def memberEnv : Env :=
  { now := Time.ofUnix 1700000000 0
    tokenValid := fun t => t.isSome
    configExchange := fun _ _ _ => .error ⟨"oauth2: cannot fetch token"⟩
    usersGet := fun _ _ _ _ => .ok { Login := some "alice" }
    isMember := fun _ _ _ _ _ => (true, none)
    authCodeURL := fun _ state => state }

/-- A configuration naming the organization `acme`. -/
def sampleAuth : Auth :=
  { OauthClientID := "id", OauthClientSecret := "secret"
    OauthCallbackURL := "https://ca.example/cb"
    ProviderOpts := [("organization", "acme")] }

/-- A certificate with key id `key`, valid from 1700000000 to 1700003600. -/
def sampleCert : Certificate :=
  { KeyId := "key", ValidPrincipals := ["alice", "root"]
    ValidAfter := 1700000000, ValidBefore := 1700003600
    CertType := 1, Key := "ssh-rsa AAAA", Signature := "sig" }

/-- A certificate with key id `forever` whose valid-before is the largest
`uint64`, the value `ssh.CertTimeInfinity` that marks "no end of validity". -/
def foreverCert : Certificate :=
  { KeyId := "forever", ValidPrincipals := ["alice"]
    ValidAfter := 1700000000, ValidBefore := 18446744073709551615
    CertType := 1, Key := "ssh-rsa AAAA", Signature := "sig" }

/-- The record of the test: key id `a`, expiring at 1700000060. -/
def sampleRecord : CertRecord :=
  { KeyID := "a", Principals := [], CreatedAt := Time.zero
    Expires := Time.ofUnix 1700000060 0, Raw := "", Revoked := false }

/-- A serialization of certificates, for the evaluations below. -/
def sampleMarshal (cert : Certificate) : String := cert.Key ++ " " ++ cert.KeyId

/-! ## Theorems: the provider -/

/-- Every `Username` call appends exactly its one lookup to the request log
and touches neither the receiver nor the token. -/
theorem Username_state (env : Env) (s : State) :
    (Username env s).2 =
      { s with log := s.log ++ [Request.usersGet s.self.config s.token ""] } := by
  unfold Username
  cases env.usersGet s.log s.self.config s.token "" with
  | error e => rfl
  | ok u =>
    cases u with
    | mk l => cases l <;> rfl

/-- Unfolding of `Valid` for a token that passes the library check and a user
lookup that returned `user`. -/
theorem Valid_of_user (env : Env) (s : State) (user : String)
    (hv : env.tokenValid s.token = true) (hu : (Username env s).1 = .returns user) :
    (Valid env s).1 =
      match (env.isMember (s.log ++ [Request.usersGet s.self.config s.token ""])
          s.self.config s.token s.self.organization user).2 with
      | some _ => .returns false
      | none => .returns (env.isMember (s.log ++ [Request.usersGet s.self.config s.token ""])
          s.self.config s.token s.self.organization user).1 := by
  have hs := Username_state env s
  unfold Valid
  rw [if_neg (by simp [hv])]
  rcases hU : Username env s with ⟨o, s1⟩
  rw [hU] at hu hs
  simp only at hu hs
  subst hu hs
  simp only
  split <;> simp_all

/-- Unfolding of `Valid` when the user lookup panics. -/
theorem Valid_of_panic (env : Env) (s : State)
    (hv : env.tokenValid s.token = true) (hu : (Username env s).1 = .panics) :
    (Valid env s).1 = .panics := by
  unfold Valid
  rw [if_neg (by simp [hv])]
  rcases hU : Username env s with ⟨o, s1⟩
  rw [hU] at hu
  simp only at hu
  subst hu
  rfl

/-- Unfolding of `Valid` for a token that fails the library check. -/
theorem Valid_of_invalid (env : Env) (s : State) (hv : env.tokenValid s.token = false) :
    Valid env s = (.returns false, s) := by
  unfold Valid
  rw [if_pos hv]

/-- C1. `Valid` is fail-closed.  It returns `true` exactly when the token
passes the library check `token.Valid()`, the user lookup returned a name, and
the membership query for that name completed without error and reported
membership.  It returns `false` whenever the token fails the library check,
and whenever the membership query it makes returns an error, whatever
membership flag comes with that error. -/
theorem Valid_fail_closed (env : Env) (s : State) :
    ((Valid env s).1 = .returns true ↔
        env.tokenValid s.token = true ∧
        ∃ user, (Username env s).1 = .returns user ∧
          env.isMember (Username env s).2.log s.self.config s.token s.self.organization user
            = (true, none)) ∧
    (env.tokenValid s.token = false → (Valid env s).1 = .returns false) ∧
    (∀ user err flag, (Username env s).1 = .returns user →
        env.isMember (Username env s).2.log s.self.config s.token s.self.organization user
          = (flag, some err) →
        (Valid env s).1 = .returns false) := by
  rw [Username_state]
  refine ⟨?_, ?_, ?_⟩
  · cases hv : env.tokenValid s.token with
    | false => simp [Valid_of_invalid env s hv]
    | true =>
      cases hu : (Username env s).1 with
      | panics => simp [Valid_of_panic env s hv hu]
      | returns user =>
        rw [Valid_of_user env s user hv hu]
        rcases hm : env.isMember (s.log ++ [Request.usersGet s.self.config s.token ""])
          s.self.config s.token s.self.organization user with ⟨flag, err⟩
        cases err with
        | some e => simp [hm]
        | none => cases flag <;> simp [hm]
  · intro hv
    rw [Valid_of_invalid env s hv]
  · intro user err flag hu hm
    cases hv : env.tokenValid s.token with
    | false => rw [Valid_of_invalid env s hv]
    | true =>
      rw [Valid_of_user env s user hv hu]
      simp only at hm
      rw [hm]

/-- Witness for C1: the membership query of `flakyEnv` fails while carrying
the flag `true`, and `Valid` answers `false`; a nil token is turned down
without any request. -/
theorem Valid_fail_closed_witness :
    (Valid flakyEnv sampleState).1 = .returns false ∧
    (Valid flakyEnv { sampleState with token := none }).1 = .returns false ∧
    ((Valid memberEnv sampleState).1 = .returns true ↔
      memberEnv.tokenValid sampleState.token = true ∧
      ∃ user, (Username memberEnv sampleState).1 = .returns user ∧
        memberEnv.isMember (Username memberEnv sampleState).2.log sampleState.self.config
          sampleState.token sampleState.self.organization user = (true, none)) :=
  ⟨(Valid_fail_closed flakyEnv sampleState).2.2 "alice" ⟨"timeout"⟩ true rfl rfl,
   (Valid_fail_closed flakyEnv { sampleState with token := none }).2.1 rfl,
   (Valid_fail_closed memberEnv sampleState).1⟩

/-- Unfolding of `Username` on a failed lookup. -/
theorem Username_of_error (env : Env) (s : State) (e : GoError)
    (h : env.usersGet s.log s.self.config s.token "" = .error e) :
    (Username env s).1 = .returns "" := by
  unfold Username
  rw [h]

/-- Unfolding of `Username` on a lookup that yields a user with a login. -/
theorem Username_of_login (env : Env) (s : State) (login : String)
    (h : env.usersGet s.log s.self.config s.token "" = .ok { Login := some login }) :
    (Username env s).1 = .returns login := by
  unfold Username
  rw [h]

/-- C2, the code at the failing input: with `lookupDownEnv` the token passes
the library check, the user lookup fails and `Username` yields the empty
string; `Valid` hands that empty string to the membership query as a name,
the query answers "member", and `Valid` returns `true`, where the claim asks
for `false`. -/
theorem Valid_lookup_failure_returns_true :
    lookupDownEnv.tokenValid sampleState.token = true ∧
    lookupDownEnv.usersGet sampleState.log sampleState.self.config sampleState.token ""
      = .error ⟨"connection refused"⟩ ∧
    (Username lookupDownEnv sampleState).1 = .returns "" ∧
    lookupDownEnv.isMember (Username lookupDownEnv sampleState).2.log sampleState.self.config
      sampleState.token sampleState.self.organization "" = (true, none) ∧
    (Valid lookupDownEnv sampleState).2.log =
      [Request.usersGet sampleState.self.config sampleState.token "",
       Request.isMember sampleState.self.config sampleState.token
         sampleState.self.organization ""] ∧
    (Valid lookupDownEnv sampleState).1 = .returns true := by
  refine ⟨rfl, rfl, rfl, rfl, rfl, rfl⟩

/-- C3. `New` fails exactly when the `organization` option reads as the empty
string, which is the case when the key is missing or mapped to the empty
string; it then returns an error and no provider.  Otherwise it returns no
error and a provider whose organization is that option and whose OAuth client
id, client secret and redirect URL are the configuration's. -/
theorem New_error_iff (c : Auth) :
    ((New c).2 ≠ none ↔ mapIndex c.ProviderOpts "organization" = "") ∧
    (mapIndex c.ProviderOpts "organization" = "" ↔
      c.ProviderOpts.lookup "organization" = none ∨
      c.ProviderOpts.lookup "organization" = some "") ∧
    (mapIndex c.ProviderOpts "organization" = "" →
      (New c).1 = none ∧ ∃ err, (New c).2 = some err) ∧
    (mapIndex c.ProviderOpts "organization" ≠ "" →
      (New c).2 = none ∧
      ∃ p, (New c).1 = some p ∧
        p.organization = mapIndex c.ProviderOpts "organization" ∧
        p.config.ClientID = c.OauthClientID ∧
        p.config.ClientSecret = c.OauthClientSecret ∧
        p.config.RedirectURL = c.OauthCallbackURL) := by
  refine ⟨?_, ?_, ?_, ?_⟩
  · unfold New
    split <;> simp_all
  · unfold mapIndex
    cases c.ProviderOpts.lookup "organization" <;> simp
  · intro h
    unfold New
    rw [if_pos h]
    exact ⟨rfl, _, rfl⟩
  · intro h
    unfold New
    rw [if_neg h]
    exact ⟨rfl, _, rfl, rfl, rfl, rfl, rfl⟩

/-- Witness for C3: a configuration without options is refused, and
`sampleAuth` yields a provider for `acme`. -/
theorem New_error_iff_witness :
    ((New { sampleAuth with ProviderOpts := [] }).1 = none ∧
      ∃ err, (New { sampleAuth with ProviderOpts := [] }).2 = some err) ∧
    ((New sampleAuth).2 = none ∧
      ∃ p, (New sampleAuth).1 = some p ∧
        p.organization = mapIndex sampleAuth.ProviderOpts "organization" ∧
        p.config.ClientID = sampleAuth.OauthClientID ∧
        p.config.ClientSecret = sampleAuth.OauthClientSecret ∧
        p.config.RedirectURL = sampleAuth.OauthCallbackURL) :=
  ⟨(New_error_iff { sampleAuth with ProviderOpts := [] }).2.2.1 (by decide),
   (New_error_iff sampleAuth).2.2.2 (by decide)⟩

/-- One hour is 3600 seconds of a billion nanoseconds each. -/
theorem Hour_nanos : (1 : Duration) * Time.Hour = 3600000000000 := by
  decide

/-- Go's zero time lies before the Unix epoch. -/
theorem zero_Unix : Time.zero.Unix = -62135596800 := by
  decide

/-- Unfolding of `Exchange` on a successful token exchange. -/
theorem Exchange_of_ok (env : Env) (s : State) (code : String) (t : Token)
    (h : env.configExchange s.log s.self.config code = .ok t) :
    (Exchange env s code).1 =
      (some (if t.Expiry.Unix ≤ 0 then { t with Expiry := env.now.Add (1 * Time.Hour) } else t),
       none) := by
  unfold Exchange
  rw [h]

/-- Unfolding of `Exchange` on a failed token exchange. -/
theorem Exchange_of_error (env : Env) (s : State) (code : String) (err : GoError)
    (h : env.configExchange s.log s.self.config code = .error err) :
    (Exchange env s code).1 = (none, some err) := by
  unfold Exchange
  rw [h]

/-- C4. `Exchange` imposes a default expiry.  When the underlying exchange
succeeds with a token whose expiry in Unix seconds is zero or negative (Go's
zero time is such an expiry), the token returned carries the expiry
`time.Now()` plus exactly one hour, 3600000000000 nanoseconds, and is
otherwise the token received.  Hence, when the clock is after the epoch, no
token returned by `Exchange` has the zero expiry. -/
theorem Exchange_default_expiry (env : Env) (s : State) (code : String) :
    (∀ t, env.configExchange s.log s.self.config code = .ok t → t.Expiry.Unix ≤ 0 →
      (Exchange env s code).1 = (some { t with Expiry := env.now.Add Time.Hour }, none) ∧
      (env.now.Add Time.Hour).nanos = env.now.nanos + 3600000000000) ∧
    (∀ t, env.configExchange s.log s.self.config code = .ok t → t.Expiry = Time.zero →
      (Exchange env s code).1 = (some { t with Expiry := env.now.Add Time.Hour }, none)) ∧
    (0 < env.now.nanos → ∀ tok, (Exchange env s code).1.1 = some tok →
      tok.Expiry.IsZero = false ∧ 0 < tok.Expiry.Unix) := by
  have hour : Time.Hour = 3600000000000 := by decide
  have key : ∀ t, env.configExchange s.log s.self.config code = .ok t → t.Expiry.Unix ≤ 0 →
      (Exchange env s code).1 = (some { t with Expiry := env.now.Add Time.Hour }, none) := by
    intro t h hz
    rw [Exchange_of_ok env s code t h, if_pos hz, one_mul]
  refine ⟨?_, ?_, ?_⟩
  · intro t h hz
    refine ⟨key t h hz, ?_⟩
    simp only [Time.Add, hour]
  · intro t h hz
    apply key t h
    rw [hz, zero_Unix]
    decide
  · intro hnow tok htok
    have hpos : 0 < tok.Expiry.Unix := by
      cases hx : env.configExchange s.log s.self.config code with
      | error err =>
        rw [Exchange_of_error env s code err hx] at htok
        simp at htok
      | ok t =>
        rw [Exchange_of_ok env s code t hx] at htok
        simp only [Option.some.injEq] at htok
        by_cases hz : t.Expiry.Unix ≤ 0
        · rw [if_pos hz] at htok
          subst htok
          simp only [Time.Unix, Time.Add, Hour_nanos]
          omega
        · rw [if_neg hz] at htok
          subst htok
          omega
    refine ⟨?_, hpos⟩
    simp only [Time.IsZero, decide_eq_false_iff_not]
    intro hzero
    rw [hzero, zero_Unix] at hpos
    omega

/-- Witness for C4: the token endpoint of `flakyEnv` hands out a token with
Go's zero expiry, and `Exchange` returns it with the expiry one hour after the
clock reading 1700000000. -/
theorem Exchange_default_expiry_witness :
    ((Exchange flakyEnv sampleState "good").1 =
        (some { AccessToken := "t1", TokenType := "bearer", RefreshToken := "",
                Expiry := flakyEnv.now.Add Time.Hour }, none) ∧
      (flakyEnv.now.Add Time.Hour).nanos = flakyEnv.now.nanos + 3600000000000) ∧
    (∀ tok, (Exchange flakyEnv sampleState "good").1.1 = some tok →
      tok.Expiry.IsZero = false ∧ 0 < tok.Expiry.Unix) :=
  ⟨(Exchange_default_expiry flakyEnv sampleState "good").1
      { AccessToken := "t1", TokenType := "bearer", RefreshToken := "", Expiry := Time.zero }
      rfl (by decide),
   (Exchange_default_expiry flakyEnv sampleState "good").2.2 (by decide)⟩

/-- C5. `Username` folds a lookup failure into the empty string: when the
user lookup returns an error, `Username` returns the empty string and no error
leaves it; when the lookup succeeds with a user whose login is `login`,
`Username` returns exactly `login`.  Either way it makes the one lookup
request and nothing else. -/
theorem Username_folds_failure (env : Env) (s : State) :
    (∀ e, env.usersGet s.log s.self.config s.token "" = .error e →
      (Username env s).1 = .returns "") ∧
    (∀ login, env.usersGet s.log s.self.config s.token "" = .ok { Login := some login } →
      (Username env s).1 = .returns login) ∧
    (Username env s).2.log = s.log ++ [Request.usersGet s.self.config s.token ""] := by
  refine ⟨fun e h => Username_of_error env s e h,
    fun login h => Username_of_login env s login h, ?_⟩
  rw [Username_state]

/-- Witness for C5: the failed lookup of `lookupDownEnv` gives the empty
string, the lookup of `memberEnv` gives `alice`. -/
theorem Username_folds_failure_witness :
    (Username lookupDownEnv sampleState).1 = .returns "" ∧
    (Username memberEnv sampleState).1 = .returns "alice" :=
  ⟨(Username_folds_failure lookupDownEnv sampleState).1 ⟨"connection refused"⟩ rfl,
   (Username_folds_failure memberEnv sampleState).2.1 "alice" rfl⟩

/-- C8. `Exchange` returns a token or fails, never both: when the underlying
OAuth exchange returns an error, `Exchange` returns that same error and a nil
token; when it succeeds, `Exchange` returns a token and a nil error.  In every
case exactly one of the two results is nil, and the one request made is the
token exchange. -/
theorem Exchange_token_or_error (env : Env) (s : State) (code : String) :
    (∀ err, env.configExchange s.log s.self.config code = .error err →
      (Exchange env s code).1 = (none, some err)) ∧
    (∀ t, env.configExchange s.log s.self.config code = .ok t →
      ∃ tok, (Exchange env s code).1 = (some tok, none)) ∧
    ((Exchange env s code).1.1 = none ↔ (Exchange env s code).1.2 ≠ none) ∧
    (Exchange env s code).2.log = s.log ++ [Request.tokenExchange s.self.config code] := by
  refine ⟨fun err h => Exchange_of_error env s code err h,
    fun t h => ⟨_, Exchange_of_ok env s code t h⟩, ?_, ?_⟩
  · cases hx : env.configExchange s.log s.self.config code with
    | error err => simp [Exchange_of_error env s code err hx]
    | ok t => simp [Exchange_of_ok env s code t hx]
  · unfold Exchange
    split <;> rfl

/-- Witness for C8: `flakyEnv` turns down the code `bad` and accepts the code
`good`. -/
theorem Exchange_token_or_error_witness :
    (Exchange flakyEnv sampleState "bad").1 = (none, some ⟨"oauth2: cannot fetch token"⟩) ∧
    ∃ tok, (Exchange flakyEnv sampleState "good").1 = (some tok, none) :=
  ⟨(Exchange_token_or_error flakyEnv sampleState "bad").1 ⟨"oauth2: cannot fetch token"⟩ rfl,
   (Exchange_token_or_error flakyEnv sampleState "good").2.1
      { AccessToken := "t1", TokenType := "bearer", RefreshToken := "", Expiry := Time.zero }
      rfl⟩

/-- C9. `Revoke` is a no-op that always succeeds: it returns a nil error,
leaves the request log as it was (no request is made), and changes neither the
token nor the provider; so, under the same identity service, `Valid` gives
after `Revoke` the answer it gives before it. -/
theorem Revoke_noop (env : Env) (s : State) :
    (Revoke s).1 = none ∧
    (Revoke s).2.log = s.log ∧
    (Revoke s).2.token = s.token ∧
    (Revoke s).2.self = s.self ∧
    Valid env (Revoke s).2 = Valid env s :=
  ⟨rfl, rfl, rfl, rfl, rfl⟩

/-- C10, the code at the failing input: when the user lookup succeeds with a
user object that carries no login, `Username` dereferences the nil login and
panics, and so does `Valid`, which calls it. -/
theorem Username_nil_login_panics :
    noLoginEnv.usersGet sampleState.log sampleState.self.config sampleState.token ""
      = .ok { Login := none } ∧
    (Username noLoginEnv sampleState).1 = .panics ∧
    (Valid noLoginEnv sampleState).1 = .panics :=
  ⟨rfl, rfl, rfl⟩

/-! ## Theorems: the parser and the in-memory store -/

/-- An integer inside the `int64` range is its own `int64` image. -/
theorem toInt64_of_range (x : Int) (h1 : -2 ^ 63 ≤ x) (h2 : x < 2 ^ 63) : toInt64 x = x := by
  unfold toInt64
  rw [Int.emod_eq_of_lt (by omega) (by omega)]
  omega

/-- Reading an `int64` image back as `uint64` gives the residue modulo 2^64. -/
theorem toUint64_toInt64 (x : Int) : toUint64 (toInt64 x) = x % 2 ^ 64 := by
  unfold toUint64 toInt64
  rw [Int.sub_emod, Int.emod_emod_of_dvd _ (dvd_refl _), ← Int.sub_emod]
  simp

/-- A `uint64` survives the trip through `int64` and back. -/
theorem toUint64_toInt64_nat (n : Nat) (h : n < 2 ^ 64) : toUint64 (toInt64 n) = n := by
  rw [toUint64_toInt64]
  exact Int.emod_eq_of_lt (by omega) (by exact_mod_cast h)

/-- Seconds of an instant built from whole seconds: the `int64` image of the
argument. -/
theorem Unix_ofUnix (sec : Int) : (Time.ofUnix sec 0).Unix = toInt64 sec := by
  have h0 : toInt64 0 = 0 := by decide
  simp only [Time.ofUnix, Time.Unix, h0, add_zero]
  exact Int.mul_ediv_cancel _ (by decide)

/-- Counterexample to C6 as stated: `foreverCert` is well formed, its
valid-after and valid-before are unsigned 64-bit values with the second the
larger, and the Unix seconds of the parsed `Expires` are -1, not the
valid-before 18446744073709551615; the parsed `Expires` is not after
`CreatedAt` either. -/
theorem parseCertificate_forever_counterexample :
    foreverCert.ValidAfter < foreverCert.ValidBefore ∧
    foreverCert.ValidBefore < 2 ^ 64 ∧
    (parseCertificate sampleMarshal foreverCert).Expires.Unix = -1 ∧
    (parseCertificate sampleMarshal foreverCert).Expires.Unix
      ≠ (foreverCert.ValidBefore : Int) ∧
    (parseCertificate sampleMarshal foreverCert).CreatedAt.Before
      (parseCertificate sampleMarshal foreverCert).Expires = false := by
  refine ⟨by decide, by decide, by decide, by decide, by decide⟩

/-- C6, amended.  Parser round trip: for every wire certificate with key id
`K`, principals `P`, valid-after `A` and valid-before `B`, both unsigned
64-bit epoch seconds with `B > A`, the parsed record has `KeyID = K`,
`Principals = P` in the same order, and `CreatedAt`, `Expires` whose Unix
seconds read back as `uint64`, the way the test compares them, are exactly `A`
and `B`.  The signed Unix seconds are the `int64` images of `A` and `B`: they
equal `A` and `B` themselves when these are below 2^63, and `CreatedAt` is
then before `Expires` as long as `B` is at most 9223371974719179007, the last
second Go's counter from year 1 can hold.  The parser is a total function, so
it returns a record for every certificate. -/
theorem parseCertificate_roundtrip (marshal : Certificate → String) (cert : Certificate)
    (hA : cert.ValidAfter < 2 ^ 64) (hB : cert.ValidBefore < 2 ^ 64)
    (hAB : cert.ValidAfter < cert.ValidBefore) :
    (parseCertificate marshal cert).KeyID = cert.KeyId ∧
    (parseCertificate marshal cert).Principals = cert.ValidPrincipals ∧
    toUint64 (parseCertificate marshal cert).CreatedAt.Unix = cert.ValidAfter ∧
    toUint64 (parseCertificate marshal cert).Expires.Unix = cert.ValidBefore ∧
    (parseCertificate marshal cert).CreatedAt.Unix = toInt64 cert.ValidAfter ∧
    (parseCertificate marshal cert).Expires.Unix = toInt64 cert.ValidBefore ∧
    (cert.ValidBefore < 2 ^ 63 →
      (parseCertificate marshal cert).CreatedAt.Unix = cert.ValidAfter ∧
      (parseCertificate marshal cert).Expires.Unix = cert.ValidBefore) ∧
    (cert.ValidBefore ≤ 9223371974719179007 →
      (parseCertificate marshal cert).CreatedAt.Before (parseCertificate marshal cert).Expires
        = true) := by
  have h1 : (parseCertificate marshal cert).CreatedAt.Unix = toInt64 cert.ValidAfter :=
    Unix_ofUnix _
  have h2 : (parseCertificate marshal cert).Expires.Unix = toInt64 cert.ValidBefore :=
    Unix_ofUnix _
  refine ⟨rfl, rfl, ?_, ?_, h1, h2, ?_, ?_⟩
  · rw [h1]
    exact toUint64_toInt64_nat _ hA
  · rw [h2]
    exact toUint64_toInt64_nat _ hB
  · intro hlt
    rw [h1, h2]
    exact ⟨toInt64_of_range _ (by omega) (by omega), toInt64_of_range _ (by omega) (by omega)⟩
  · intro hle
    have hA2 : toInt64 (cert.ValidAfter : Int) = cert.ValidAfter :=
      toInt64_of_range _ (by omega) (by omega)
    have hB2 : toInt64 (cert.ValidBefore : Int) = cert.ValidBefore :=
      toInt64_of_range _ (by omega) (by omega)
    have hs1 : (parseCertificate marshal cert).CreatedAt.sec
        = cert.ValidAfter + 62135596800 := by
      show toInt64 ((parseCertificate marshal cert).CreatedAt.Unix + 62135596800) = _
      rw [h1, hA2]
      exact toInt64_of_range _ (by omega) (by omega)
    have hs2 : (parseCertificate marshal cert).Expires.sec
        = cert.ValidBefore + 62135596800 := by
      show toInt64 ((parseCertificate marshal cert).Expires.Unix + 62135596800) = _
      rw [h2, hB2]
      exact toInt64_of_range _ (by omega) (by omega)
    simp only [Time.Before, decide_eq_true_eq]
    left
    rw [hs1, hs2]
    omega

/-- Witness for the amended C6, at `sampleCert`. -/
theorem parseCertificate_roundtrip_witness :
    sampleCert.ValidAfter < 2 ^ 64 ∧ sampleCert.ValidBefore < 2 ^ 64 ∧
    sampleCert.ValidAfter < sampleCert.ValidBefore ∧
    (parseCertificate sampleMarshal sampleCert).KeyID = "key" ∧
    (parseCertificate sampleMarshal sampleCert).Principals = ["alice", "root"] ∧
    toUint64 (parseCertificate sampleMarshal sampleCert).CreatedAt.Unix = (1700000000 : Nat) ∧
    toUint64 (parseCertificate sampleMarshal sampleCert).Expires.Unix = (1700003600 : Nat) ∧
    (parseCertificate sampleMarshal sampleCert).CreatedAt.Unix = (1700000000 : Nat) ∧
    (parseCertificate sampleMarshal sampleCert).Expires.Unix = (1700003600 : Nat) ∧
    (parseCertificate sampleMarshal sampleCert).CreatedAt.Before
      (parseCertificate sampleMarshal sampleCert).Expires = true :=
  have h := parseCertificate_roundtrip sampleMarshal sampleCert
    (by decide) (by decide) (by decide)
  ⟨by decide, by decide, by decide, h.1, h.2.1, h.2.2.1, h.2.2.2.1,
   (h.2.2.2.2.2.2.1 (by decide)).1, (h.2.2.2.2.2.2.1 (by decide)).2,
   h.2.2.2.2.2.2.2 (by decide)⟩

/-- The scenario leaves the store holding the record and the revoked
certificate record, in that order. -/
theorem testStore_final (marshal : Certificate → String) (now : Time) (r : CertRecord)
    (cert : Certificate) (hk : cert.KeyId ≠ r.KeyID) :
    (testStore marshal now r cert cert.KeyId).final.certs =
      [r, { parseCertificate marshal cert with Revoked := true }] := by
  have hk2 : ¬ r.KeyID = cert.KeyId := fun h => hk h.symm
  simp [testStore, NewMemoryStore, MemoryStore.SetRecord, MemoryStore.SetCert,
    MemoryStore.Revoke, MemoryStore.upsert, MemoryStore.find, parseCertificate, hk2]

/-- C7. Store scenario on the in-memory backend: from an empty store, for
every unexpired record `r` that is not revoked and every unexpired certificate
`c` whose key id `k` differs from `r.KeyID`, the sequence `SetRecord(r)`,
`List(true)`, `SetCert(c)`, `Get(k)`, `Revoke(k)`, `GetRevoked()` runs with no
operation returning an error; `Get(k)` finds the record parsed from `c`; and
`GetRevoked()` returns exactly the stored records with `Revoked = true`: it
contains a record with key id `k` and no record with another key id. -/
theorem testStore_memory (marshal : Certificate → String) (now : Time) (r : CertRecord)
    (cert : Certificate)
    (_hr : unexpired now r.Expires = true)
    (_hc : unexpired now (parseCertificate marshal cert).Expires = true)
    (hrev : r.Revoked = false) (hk : cert.KeyId ≠ r.KeyID) :
    (testStore marshal now r cert cert.KeyId).setRecordErr = none ∧
    (testStore marshal now r cert cert.KeyId).listed = .ok [r] ∧
    (testStore marshal now r cert cert.KeyId).setCertErr = none ∧
    (testStore marshal now r cert cert.KeyId).got = .ok (parseCertificate marshal cert) ∧
    (testStore marshal now r cert cert.KeyId).revokeErr = none ∧
    ∃ revoked, (testStore marshal now r cert cert.KeyId).revoked = .ok revoked ∧
      (∀ x, x ∈ revoked ↔
        x ∈ (testStore marshal now r cert cert.KeyId).final.certs ∧ x.Revoked = true) ∧
      (∃ x, x ∈ revoked ∧ x.KeyID = cert.KeyId) ∧
      (∀ x, x ∈ revoked → x.KeyID = cert.KeyId) := by
  have hk2 : ¬ r.KeyID = cert.KeyId := fun h => hk h.symm
  have hfinal := testStore_final marshal now r cert hk
  refine ⟨rfl, ?_, rfl, ?_, ?_, ?_⟩
  · simp [testStore, NewMemoryStore, MemoryStore.SetRecord, MemoryStore.List,
      MemoryStore.upsert]
  · simp [testStore, NewMemoryStore, MemoryStore.SetRecord, MemoryStore.SetCert,
      MemoryStore.Get, MemoryStore.upsert, MemoryStore.find, parseCertificate, hk2]
  · simp [testStore, NewMemoryStore, MemoryStore.SetRecord, MemoryStore.SetCert,
      MemoryStore.Revoke, MemoryStore.upsert, MemoryStore.find, parseCertificate, hk2]
  · refine ⟨(testStore marshal now r cert cert.KeyId).final.certs.filter (fun x => x.Revoked),
      rfl, ?_, ?_, ?_⟩
    · intro x
      simp [List.mem_filter]
    · rw [hfinal]
      refine ⟨{ parseCertificate marshal cert with Revoked := true }, ?_, rfl⟩
      simp [List.mem_filter]
    · rw [hfinal]
      intro x hx
      simp only [List.mem_filter, List.mem_cons, List.mem_singleton, List.not_mem_nil,
        or_false] at hx
      rcases hx with ⟨hx | hx, hx2⟩
      · subst hx
        rw [hrev] at hx2
        exact absurd hx2 (by decide)
      · subst hx
        rfl

/-- Witness for C7: the test's record `a` and the certificate `key`, with the
clock at 1700000000; the revoked list is the one record of key id `key`. -/
theorem testStore_memory_witness :
    unexpired (Time.ofUnix 1700000000 0) sampleRecord.Expires = true ∧
    unexpired (Time.ofUnix 1700000000 0) (parseCertificate sampleMarshal sampleCert).Expires
      = true ∧
    sampleRecord.Revoked = false ∧
    sampleCert.KeyId ≠ sampleRecord.KeyID ∧
    (testStore sampleMarshal (Time.ofUnix 1700000000 0) sampleRecord sampleCert
        sampleCert.KeyId).setRecordErr = none ∧
    (testStore sampleMarshal (Time.ofUnix 1700000000 0) sampleRecord sampleCert
        sampleCert.KeyId).got = .ok (parseCertificate sampleMarshal sampleCert) ∧
    (testStore sampleMarshal (Time.ofUnix 1700000000 0) sampleRecord sampleCert
        sampleCert.KeyId).revokeErr = none ∧
    (testStore sampleMarshal (Time.ofUnix 1700000000 0) sampleRecord sampleCert
        sampleCert.KeyId).revoked =
      .ok [{ parseCertificate sampleMarshal sampleCert with Revoked := true }] :=
  have h := testStore_memory sampleMarshal (Time.ofUnix 1700000000 0) sampleRecord sampleCert
    (by decide) (by decide) (by decide) (by decide)
  ⟨by decide, by decide, by decide, by decide, h.1, h.2.2.2.1, h.2.2.2.2.1, rfl⟩

end Cashier
